import Mathlib

/-!
Verification development for the DDLC game-to-calendar script (`main.py`).

The script scrapes a schedule table, normalizes rows into `Game` records and
inserts them into a calendar store, skipping duplicates.  Python strings are
embedded as `List Char`; the relevant pieces of `re`, `str` and
`datetime` behaviour are embedded as executable functions below, and the
row-processing / calendar-writing logic of `main.py` is translated on top of
them.  Machine-level integer overflow is out of scope: integers are `Nat`.
-/

/-- Python strings are modelled as lists of characters. -/
abbrev Str := List Char

/-- Membership of a decimal digit, modelling `\d` of the `re` module on the
ASCII digits that occur in this data. -/
def isDigitChar (c : Char) : Bool := decide ('0' ≤ c ∧ c ≤ '9')

/-- Whitespace, modelling `\s` of the `re` module and `str.strip` on the
ASCII whitespace that occurs in this data. -/
def isSpaceChar (c : Char) : Bool :=
  decide (c = ' ' ∨ c = '\t' ∨ c = '\n' ∨ c = '\x0d' ∨ c = '\x0b' ∨ c = '\x0c')

/-- Word characters, modelling `\w` of the `re` module: ASCII letters, digits,
underscore, and the Latin-1 letters (which cover the accented characters of
the French month names, e.g. in `décembre` and `août`). -/
def isWordChar (c : Char) : Bool :=
  isDigitChar c || decide ('a' ≤ c ∧ c ≤ 'z') || decide ('A' ≤ c ∧ c ≤ 'Z') ||
    decide (c = '_') || decide (0xC0 ≤ c.toNat)

/-- Lower-casing of one character, modelling `str.lower` on the ASCII and
Latin-1 ranges (enough for the venue markers and French month names; `0xD7`
is the multiplication sign, which has no lower-case form). -/
def lowerChar (c : Char) : Char :=
  if 'A' ≤ c ∧ c ≤ 'Z' then Char.ofNat (c.toNat + 32)
  else if 0xC0 ≤ c.toNat ∧ c.toNat ≤ 0xDE ∧ c.toNat ≠ 0xD7 then Char.ofNat (c.toNat + 32)
  else c

/-- Lower-casing of a string (`str.lower`). -/
def lowerStr (s : Str) : Str := s.map lowerChar

/-- Value of a string of decimal digits, modelling `int()` on the digit-only
strings produced by the regex groups of `main.py`. -/
def natOfDigits (s : Str) : Nat :=
  s.foldl (fun a c => a * 10 + (c.toNat - ('0').toNat)) 0

/-- Python `int()` on a general string: succeeds on a non-empty all-digit
string, raises `ValueError` (modelled as `none`) otherwise.  Sign and
whitespace tolerance of `int()` are unreachable with the inputs of
`main.py`, whose strings come from digit-only regex groups. -/
def pyInt (s : Str) : Option Nat :=
  if s ≠ [] ∧ s.all isDigitChar then some (natOfDigits s) else none

/-- Python substring test `needle in haystack`. -/
def containsStr (needle haystack : Str) : Bool := decide (needle <:+: haystack)

/-- Python `str.strip()`: drop leading and trailing whitespace. -/
def pyStrip (s : Str) : Str :=
  ((s.dropWhile isSpaceChar).reverse.dropWhile isSpaceChar).reverse

/-- Accumulator loop for `pySplitWs`. -/
def pySplitWsAux : Str → Str → List Str
  | [], acc => if acc = [] then [] else [acc.reverse]
  | c :: rest, acc =>
    if isSpaceChar c then
      if acc = [] then pySplitWsAux rest [] else acc.reverse :: pySplitWsAux rest []
    else pySplitWsAux rest (c :: acc)

/-- Python `str.split()` with no argument: split on whitespace runs,
dropping empty pieces. -/
def pySplitWs (s : Str) : List Str := pySplitWsAux s []

/-- Accumulator loop for `pySplitDash`. -/
def pySplitDashAux : Str → Str → List Str
  | [], acc => [acc.reverse]
  | c :: rest, acc =>
    if c = '-' then acc.reverse :: pySplitDashAux rest []
    else pySplitDashAux rest (c :: acc)

/-- Python `str.split('-')`: split on every dash, keeping empty pieces. -/
def pySplitDash (s : Str) : List Str := pySplitDashAux s []

/-- Python list indexing `l[i]` with negative indices counting from the end;
`none` models an `IndexError`. -/
def pyIndex {α : Type} (l : List α) (i : Int) : Option α :=
  if 0 ≤ i then l.get? i.toNat
  else if 0 ≤ (l.length : Int) + i then l.get? ((l.length : Int) + i).toNat
  else none

/-- Timestamps, mirroring the fields of Python `datetime` used by `main.py`
(seconds and microseconds are always zero there). -/
structure DateTime where
  year : Nat
  month : Nat
  day : Nat
  hour : Nat
  minute : Nat
deriving DecidableEq, Repr

/-- Gregorian leap-year rule, as used by `datetime`. -/
def isLeapYear (y : Nat) : Bool := y % 4 == 0 && (y % 100 != 0 || y % 400 == 0)

/-- Number of days of a month, as used by `datetime`. -/
def daysInMonth (y m : Nat) : Nat :=
  if m = 2 then (if isLeapYear y then 29 else 28)
  else if m = 4 ∨ m = 6 ∨ m = 9 ∨ m = 11 then 30
  else 31

/-- Validity of the field values accepted by the `datetime` constructor. -/
def isValidDateTime (dt : DateTime) : Bool :=
  decide (1 ≤ dt.year ∧ dt.year ≤ 9999 ∧ 1 ≤ dt.month ∧ dt.month ≤ 12 ∧
    1 ≤ dt.day ∧ dt.day ≤ daysInMonth dt.year dt.month ∧ dt.hour ≤ 23 ∧ dt.minute ≤ 59)

/-- The `datetime(year, month, day, hour, minute)` constructor under a
`try/except ValueError` as in `parse_french_date`, for field values within
the C-int range, where every rejection is a `ValueError`: `none` models the
caught `ValueError` on invalid field values.  `datetimeCtor` below extends
this model with the `OverflowError` the constructor raises (uncaught) for
field values beyond the C-int range. -/
def mkDatetime (y m d h mi : Nat) : Option DateTime :=
  if isValidDateTime ⟨y, m, d, h, mi⟩ then some ⟨y, m, d, h, mi⟩ else none

/-- Python `datetime` strict comparison: lexicographic on the fields. -/
def dtLtProp (a b : DateTime) : Prop :=
  a.year < b.year ∨ (a.year = b.year ∧ (a.month < b.month ∨ (a.month = b.month ∧
    (a.day < b.day ∨ (a.day = b.day ∧ (a.hour < b.hour ∨
      (a.hour = b.hour ∧ a.minute < b.minute)))))))

instance (a b : DateTime) : Decidable (dtLtProp a b) := by
  unfold dtLtProp; infer_instance

/-- Boolean form of the `datetime` strict comparison `a < b`. -/
def dtLt (a b : DateTime) : Bool := decide (dtLtProp a b)

/-- Successor day in the calendar (used only to carry the +50 minutes of the
game duration across a midnight boundary, as `timedelta` addition does). -/
def nextDay : Nat × Nat × Nat → Nat × Nat × Nat
  | (y, m, d) => if d < daysInMonth y m then (y, m, d + 1)
    else if m < 12 then (y, m + 1, 1) else (y + 1, 1, 1)

/-- Iterated `nextDay`. -/
def addDays : Nat → Nat × Nat × Nat → Nat × Nat × Nat
  | 0, t => t
  | n + 1, t => addDays n (nextDay t)

/-- Python `dt + timedelta(minutes=k)` on the valid datetimes of this data. -/
def DateTime.addMinutes (dt : DateTime) (k : Nat) : DateTime :=
  let tot := dt.hour * 60 + dt.minute + k
  let ymd := addDays (tot / 60 / 24) (dt.year, dt.month, dt.day)
  ⟨ymd.1, ymd.2.1, ymd.2.2, tot / 60 % 24, tot % 60⟩

/-- Match of the regex `(\d+)\s+(\w+)` anchored at the start of `s`: the
greedy digit run, a whitespace run, and the greedy word run; all three must
be non-empty. -/
def matchDayMonthAt (s : Str) : Option (Str × Str) :=
  let d := s.takeWhile isDigitChar
  if d = [] then none else
  let r1 := s.dropWhile isDigitChar
  if r1.takeWhile isSpaceChar = [] then none else
  let r2 := r1.dropWhile isSpaceChar
  let w := r2.takeWhile isWordChar
  if w = [] then none else some (d, w)

/-- Leftmost match of `re.search(r'(\d+)\s+(\w+)', s)` (line 34 of
`main.py`): try each start position from the left. -/
def searchDayMonth : Str → Option (Str × Str)
  | [] => none
  | c :: rest =>
    match matchDayMonthAt (c :: rest) with
    | some r => some r
    | none => searchDayMonth rest

/-- Match of the regex `(\d+):(\d+)` anchored at the start of `s`. -/
def matchTimeAt (s : Str) : Option (Str × Str) :=
  let h := s.takeWhile isDigitChar
  if h = [] then none else
  match s.dropWhile isDigitChar with
  | ':' :: r2 =>
    let m := r2.takeWhile isDigitChar
    if m = [] then none else some (h, m)
  | _ => none

/-- Leftmost match of `re.search(r'(\d+):(\d+)', s)` (line 51 of
`main.py`). -/
def searchTimePair : Str → Option (Str × Str)
  | [] => none
  | c :: rest =>
    match matchTimeAt (c :: rest) with
    | some r => some r
    | none => searchTimePair rest

/-- Match of `\d{4}-\d{2}-\d{2}` anchored at the start of `s`, returning the
matched ten characters. -/
def matchIsoAt : Str → Option Str
  | a :: b :: c :: d :: '-' :: e :: f :: '-' :: g :: h :: _ =>
    if [a, b, c, d, e, f, g, h].all isDigitChar then
      some [a, b, c, d, '-', e, f, '-', g, h]
    else none
  | _ => none

/-- Leftmost match of `re.search(r'(\d{4}-\d{2}-\d{2})', s)` (lines 174 and
182 of `main.py`). -/
def searchIsoDate : Str → Option Str
  | [] => none
  | c :: rest =>
    match matchIsoAt (c :: rest) with
    | some r => some r
    | none => searchIsoDate rest

/-- Full-string match of `re.match(r'^\d{1,2}:\d{2}$', s)` (line 176 of
`main.py`): one or two hour digits, a colon, exactly two minute digits. -/
def matchHMM : Str → Bool
  | [a, ':', b, c] => isDigitChar a && isDigitChar b && isDigitChar c
  | [a, a2, ':', b, c] =>
    isDigitChar a && isDigitChar a2 && isDigitChar b && isDigitChar c
  | _ => false

/-- One-digit-hour fallback for `matchTimePrefixGroups`. -/
def matchTimePrefixOne : Str → Option (Str × Str)
  | a :: ':' :: m1 :: m2 :: _ =>
    if isDigitChar a && isDigitChar m1 && isDigitChar m2 then some ([a], [m1, m2])
    else none
  | _ => none

/-- Prefix match of `re.match(r'(\d{1,2}):(\d{2})', s)` (line 191 of
`main.py`): greedy two-digit hour first, then the one-digit backtrack;
trailing characters are ignored. -/
def matchTimePrefixGroups (s : Str) : Option (Str × Str) :=
  match s with
  | a :: b :: ':' :: m1 :: m2 :: _ =>
    if isDigitChar a && isDigitChar b && isDigitChar m1 && isDigitChar m2 then
      some ([a, b], [m1, m2])
    else matchTimePrefixOne s
  | _ => matchTimePrefixOne s

/-- Match of `\s*\([^)]*\)` anchored at the start of `s`: optional
whitespace, an opening parenthesis, a run of non-`)` characters and the
closing parenthesis.  Returns the remainder after the match. -/
def matchParenAt (s : Str) : Option Str :=
  match s.dropWhile isSpaceChar with
  | '(' :: r2 =>
    match r2.dropWhile (fun c => !(c = ')')) with
    | ')' :: r3 => some r3
    | _ => none
  | _ => none

/-- Fuelled scanner for `stripParens`; each step consumes at least one
character, so fuel equal to the length suffices. -/
def stripParensAux : Nat → Str → Str
  | 0, s => s
  | n + 1, s =>
    match s with
    | [] => []
    | c :: rest =>
      match matchParenAt (c :: rest) with
      | some rem => stripParensAux n rem
      | none => c :: stripParensAux n rest

/-- Python `re.sub(r'\s*\([^)]*\)', '', s)` (line 235 of `main.py`):
delete every leftmost non-overlapping parenthetical (with its leading
whitespace). -/
def stripParens (s : Str) : Str := stripParensAux s.length s

/-- The `FRENCH_MONTHS` table of `DDLCGameFetcher`. -/
def frenchMonths (s : Str) : Option Nat :=
  if s = ("janvier").data then some 1
  else if s = ("février").data then some 2
  else if s = ("mars").data then some 3
  else if s = ("avril").data then some 4
  else if s = ("mai").data then some 5
  else if s = ("juin").data then some 6
  else if s = ("juillet").data then some 7
  else if s = ("août").data then some 8
  else if s = ("septembre").data then some 9
  else if s = ("octobre").data then some 10
  else if s = ("novembre").data then some 11
  else if s = ("décembre").data then some 12
  else none

/-- Embedding of `DDLCGameFetcher.parse_french_date` (lines 32-62 of
`main.py`).  `now` stands for `datetime.now()`; the default `year=None`
argument is `yearArg = none`.  A result of `none` models every path that
returns `None` in Python, including the caught `ValueError` of an invalid
calendar date. -/
def parseFrenchDate (dateStr timeStr : Str) (yearArg : Option Nat) (now : DateTime) :
    Option DateTime :=
  match searchDayMonth dateStr with
  | none => none
  | some (dayStr, monthStr) =>
    let day := natOfDigits dayStr
    match frenchMonths (lowerStr monthStr) with
    | none => none
    | some month =>
      let year := match yearArg with
        | some y => y
        | none =>
          if month < now.month ∨ (month = now.month ∧ day < now.day) then now.year + 1
          else now.year
      match searchTimePair timeStr with
      | none => none
      | some (hourStr, minStr) =>
        mkDatetime year month day (natOfDigits hourStr) (natOfDigits minStr)

/-- Largest field value the CPython `datetime` constructor converts without
raising `OverflowError` (the C-int maximum, 2^31 - 1): `datetime(2025, 12,
15, 2147483647, 0)` raises `ValueError`, while `datetime(2025, 12, 15,
2147483648, 0)` raises `OverflowError`. -/
def cIntMax : Nat := 2147483647

/-- The three outcomes of the `datetime(...)` constructor call:
success, a `ValueError` (caught by the handler at line 61 of `main.py`),
or an `OverflowError` for a field beyond the C-int range (not a
`ValueError`, hence not caught anywhere in the program). -/
inductive CtorResult where
  | ok : DateTime → CtorResult
  | valueError : CtorResult
  | overflowError : CtorResult
deriving DecidableEq, Repr

/-- The `datetime(year, month, day, hour, minute)` constructor with both
error modes: argument conversion raises `OverflowError` for values beyond
the C-int range; values within it are then range-checked, raising
`ValueError` when invalid. -/
def datetimeCtor (y m d h mi : Nat) : CtorResult :=
  if cIntMax < y ∨ cIntMax < m ∨ cIntMax < d ∨ cIntMax < h ∨ cIntMax < mi then .overflowError
  else if isValidDateTime ⟨y, m, d, h, mi⟩ then .ok ⟨y, m, d, h, mi⟩ else .valueError

/-- The `datetime(...)` call of lines 58-62 of `main.py` under its
`try/except ValueError`, with both error modes of `datetimeCtor`: success
returns the timestamp, the caught `ValueError` returns `None` (`.ok none`),
and the `OverflowError` — not a `ValueError` — escapes as `.error ()`. -/
def pyDatetimeTry (y m d h mi : Nat) : Except Unit (Option DateTime) :=
  match datetimeCtor y m d h mi with
  | .ok dt => .ok (some dt)
  | .valueError => .ok none
  | .overflowError => .error ()

/-- Decidable equality for `Except` results, so that concrete runs of the
exception-aware model can be evaluated inside proofs. -/
instance {ε α : Type} [DecidableEq ε] [DecidableEq α] : DecidableEq (Except ε α)
  | .ok x, .ok y =>
    if h : x = y then .isTrue (by rw [h]) else .isFalse (by intro hh; cases hh; exact h rfl)
  | .ok _, .error _ => .isFalse (by intro hh; cases hh)
  | .error _, .ok _ => .isFalse (by intro hh; cases hh)
  | .error e, .error f =>
    if h : e = f then .isTrue (by rw [h]) else .isFalse (by intro hh; cases hh; exact h rfl)

/-- Embedding of `parse_french_date` with the exception path made explicit:
identical to `parseFrenchDate` except that the final constructor call is
`pyDatetimeTry`, whose `OverflowError` outcome — which the
`except ValueError` at line 61 of `main.py` does not catch — is `.error ()`,
an exception propagating to the caller.  `.ok none` is a Python `None`
return. -/
def parseFrenchDateExc (dateStr timeStr : Str) (yearArg : Option Nat) (now : DateTime) :
    Except Unit (Option DateTime) :=
  match searchDayMonth dateStr with
  | none => .ok none
  | some (dayStr, monthStr) =>
    let day := natOfDigits dayStr
    match frenchMonths (lowerStr monthStr) with
    | none => .ok none
    | some month =>
      let year := match yearArg with
        | some y => y
        | none =>
          if month < now.month ∨ (month = now.month ∧ day < now.day) then now.year + 1
          else now.year
      match searchTimePair timeStr with
      | none => .ok none
      | some (hourStr, minStr) =>
        pyDatetimeTry year month day (natOfDigits hourStr) (natOfDigits minStr)

/-- A normalized game record, mirroring the dict built at lines 242-252 of
`main.py` (`end` is a Lean keyword, so that field is `endTime`). -/
structure Game where
  title : Str
  start : DateTime
  endTime : DateTime
  location : Str
  notes : Str
  calendar : Str
  ourTeam : Str
  opponent : Str
  isHome : Bool
deriving DecidableEq, Repr

/-- One `td` cell of a schedule row: the text of its `game_date` div and of
its `game_venue` div, when present (texts are as returned by
`get_text(strip=True)`). -/
structure Cell where
  gameDate : Option Str
  gameVenue : Option Str
deriving DecidableEq, Repr

/-- One `tr` of the schedule table as seen by the loop at lines 114-255 of
`main.py`: the text of an `h2` header when present, the row's classes, the
texts of the team anchors (`a[href*=/equipes/]`), the category structure
(`none` = no `cat_name` div; `some none` = div without `span`; `some (some
t)` = span with text `t`), and the `td` cells. -/
structure RowInput where
  h2Text : Option Str
  classes : List Str
  teamLinkTexts : List Str
  catNameDiv : Option (Option Str)
  tds : List Cell
deriving DecidableEq, Repr

/-- Result of processing one game row: `err` models an uncaught Python
exception, `skip` a `continue`, and `game g` appending `g` to
`self.games`. -/
inductive RowResult where
  | err : RowResult
  | skip : RowResult
  | game : Game → RowResult
deriving DecidableEq, Repr

/-- Result of the whole fetch loop. -/
inductive RunResult where
  | raised : RunResult
  | ok : List Game → RunResult
deriving DecidableEq, Repr

/-- Seen-set loop of lines 130-135 of `main.py`: deduplicate the team names
preserving first-seen order. -/
def dedupTeamsAux : List Str → List Str → List Str
  | [], _ => []
  | t :: rest, seen =>
    if t ∈ seen then dedupTeamsAux rest seen
    else t :: dedupTeamsAux rest (t :: seen)

/-- Order-preserving deduplication of the extracted team names. -/
def dedupTeams (l : List Str) : List Str := dedupTeamsAux l []

/-- The `for i, team in enumerate(team_names)` loop of lines 145-150 of
`main.py`: find the first name that is in the configured list; the opponent
is `team_names[1 - i]` (Python indexing, valid whenever the list has at
least two entries) and `is_home` is `i == 1`. -/
def teamMatchGo (cfg names : List Str) : Nat → List Str → Option (Str × Str × Bool)
  | _, [] => none
  | i, t :: rest =>
    if t ∈ cfg then some (t, ((pyIndex names (1 - (i : Int))).getD [], i == 1))
    else teamMatchGo cfg names (i + 1) rest

/-- Team matching over the deduplicated names; `none` models the
`if not our_team: continue` discard of lines 152-153. -/
def teamMatch (cfg names : List Str) : Option (Str × Str × Bool) :=
  teamMatchGo cfg names 0 names

/-- Category extraction of lines 155-164 of `main.py`.  `.err` models the
uncaught `IndexError` of `category_text.split()[0]` when the span text is
non-empty but all whitespace; otherwise the category is the first
whitespace-delimited token, or the defaults `Hockey` / `Unknown`. -/
def extractCategory (catNameDiv : Option (Option Str)) : Except Unit Str :=
  match catNameDiv with
  | none => .ok (("Unknown").data)
  | some none => .ok (("Hockey").data)
  | some (some txt) =>
    if txt = [] then .ok (("Hockey").data)
    else
      match pySplitWs txt with
      | [] => .error ()
      | t :: _ => .ok t

/-- Embedding of lines 185-197 of `main.py`: split the matched ISO date on
dashes, convert the parts and the `(\d{1,2}):(\d{2})` prefix of the time
string, and build the datetime; `none` covers both the caught
`ValueError`/`IndexError` and an absent time match. -/
def parseAbsolute (dateStr timeStr : Str) : Option DateTime :=
  match pySplitDash dateStr with
  | yS :: mS :: dS :: _ =>
    match pyInt yS, pyInt mS, pyInt dS with
    | some y, some m, some d =>
      (match matchTimePrefixGroups timeStr with
       | some (hS, miS) =>
         match pyInt hS, pyInt miS with
         | some h, some mi => mkDatetime y m d h mi
         | _, _ => none
       | none => none)
    | _, _, _ => none
  | _ => none

/-- Inner loop of lines 178-198 of `main.py`: scan all the row's cells for
the first `game_date` div whose text contains an ISO date, then parse it
with the time string (breaking whether or not the parse succeeds). -/
def innerDateScan (timeStr : Str) : List Cell → Option DateTime
  | [] => none
  | td :: rest =>
    match td.gameDate with
    | none => innerDateScan timeStr rest
    | some txt =>
      match searchIsoDate txt with
      | none => innerDateScan timeStr rest
      | some dStr => parseAbsolute dStr timeStr

/-- Outer loop of lines 170-203 of `main.py` over the row's cells: skip
cells whose `game_date` text contains an ISO date, and stop at the first
cell whose text is a bare `H:MM` time, returning the datetime obtained by
cross-referencing the cells and that cell's `game_venue` text. -/
def outerScan (allTds : List Cell) : List Cell → Option (Option DateTime × Option Str)
  | [] => none
  | td :: rest =>
    match td.gameDate with
    | none => outerScan allTds rest
    | some txt =>
      if (searchIsoDate txt).isSome then outerScan allTds rest
      else if matchHMM txt then some (innerDateScan txt allTds, td.gameVenue)
      else outerScan allTds rest

/-- Text of the first `game_date` div of the row (`row.find` at line 206 of
`main.py`). -/
def rowFirstGameDate (row : RowInput) : Option Str :=
  row.tds.findSome? Cell.gameDate

/-- Text of the first `game_venue` div of the row (`row.find` at line 211 of
`main.py`). -/
def rowFirstGameVenue (row : RowInput) : Option Str :=
  row.tds.findSome? Cell.gameVenue

/-- Venue routing of lines 222-233 of `main.py`, giving the destination
calendar and the event title, or `none` for the unknown-venue discard. -/
def venueRoute (venue category : Str) : Option (Str × Str) :=
  if containsStr (("(St-Aug").data) venue || containsStr (("(st-aug").data) (lowerStr venue) then
    some ((("Dek St-Aug").data), ("game ").data ++ category)
  else if containsStr (("(Chauveau").data) venue ||
      containsStr (("(chauveau").data) (lowerStr venue) then
    some ((("Dek Chauveau").data), ("game ").data ++ category)
  else if containsStr (("lévis").data) (lowerStr venue) ||
      containsStr (("levis").data) (lowerStr venue) then
    some ((("Autre").data), ("game ").data ++ category ++ (" Levis").data)
  else none

/-- Python truthiness of the `current_date_str` variable: a non-`None`,
non-empty string. -/
def truthyStr : Option Str → Bool
  | none => false
  | some s => decide (s ≠ [])

/-- Embedding of the per-game-row body of the fetch loop, lines 123-255 of
`main.py`: team extraction and matching, category, the two date encodings,
the past-game filter, venue routing, and construction of the `Game`. -/
def processGameRow (cfg : List Str) (currentDateStr : Option Str) (row : RowInput)
    (now : DateTime) : RowResult :=
  if row.teamLinkTexts.length < 2 then .skip
  else
    let teamNames := dedupTeams (row.teamLinkTexts.filter (fun t => decide (t ≠ [])))
    if teamNames.length < 2 then .skip
    else
      match teamMatch cfg teamNames with
      | none => .skip
      | some (ourTeam, opponent, isHome) =>
        match extractCategory row.catNameDiv with
        | .error _ => .err
        | .ok category =>
          let scanned := outerScan row.tds row.tds
          let dt0 : Option DateTime :=
            match scanned with
            | none => none
            | some (d, _) => d
          let venue0 : Str :=
            match scanned with
            | none => ("TBD").data
            | some (_, v) => v.getD (("TBD").data)
          let fb := dt0.isNone && truthyStr currentDateStr
          let dt1 : Option DateTime :=
            if fb then
              match rowFirstGameDate row with
              | some tStr => parseFrenchDate (currentDateStr.getD []) tStr none now
              | none => none
            else dt0
          let venue1 : Str := if fb then (rowFirstGameVenue row).getD venue0 else venue0
          match dt1 with
          | none => .skip
          | some dt =>
            if dtLt dt now then .skip
            else
              match venueRoute venue1 category with
              | none => .skip
              | some (cal, title) =>
                let venueName := pyStrip (stripParens venue1)
                let notes :=
                  if isHome then
                    opponent ++ (" @ ").data ++ ourTeam ++ ("\n").data ++ venueName
                  else ourTeam ++ (" @ ").data ++ opponent ++ ("\n").data ++ venueName
                .game ⟨title, dt, dt.addMinutes 50, [], notes, cal, ourTeam, opponent, isHome⟩

/-- The row loop of lines 114-255 of `main.py`: `h2` rows update the
current-section-date context, rows without the `schedule_container` class
are skipped, and game rows are appended in order. -/
def processRows (cfg : List Str) (now : DateTime) :
    List RowInput → Option Str → List Game → RunResult
  | [], _, acc => .ok acc
  | row :: rest, cur, acc =>
    match row.h2Text with
    | some t => processRows cfg now rest (some t) acc
    | none =>
      if ("schedule_container").data ∈ row.classes then
        match processGameRow cfg cur row now with
        | .err => .raised
        | .skip => processRows cfg now rest cur acc
        | .game g => processRows cfg now rest cur (acc ++ [g])
      else processRows cfg now rest cur acc

/-- An event of the calendar store, with the fields `add_to_calendar`
writes through AppleScript. -/
structure CalEvent where
  calendar : Str
  start : DateTime
  title : Str
  endTime : DateTime
  location : Str
  description : Str
deriving DecidableEq, Repr

/-- The existence check of lines 275-294 of `main.py`: an event of the
named calendar whose start date equals the game's start and whose summary
equals the game's title. -/
def eventMatches (g : Game) (e : CalEvent) : Bool :=
  decide (e.calendar = g.calendar ∧ e.start = g.start ∧ e.title = g.title)

/-- The event created by the insertion script of lines 305-311. -/
def makeEvent (g : Game) : CalEvent :=
  ⟨g.calendar, g.start, g.title, g.endTime, g.location, g.notes⟩

/-- Embedding of `DDLCGameFetcher.add_to_calendar` (lines 262-321 of
`main.py`) against a reachable calendar store: for each game, skip it when
the existence check matches, otherwise append the new event.  Returns the
final store with the added and skipped counts. -/
def addToCalendar : List CalEvent → List Game → List CalEvent × Nat × Nat
  | store, [] => (store, 0, 0)
  | store, g :: gs =>
    if store.any (eventMatches g) then
      let r := addToCalendar store gs
      (r.1, r.2.1, r.2.2 + 1)
    else
      let r := addToCalendar (store ++ [makeEvent g]) gs
      (r.1, r.2.1 + 1, r.2.2)

/-- Number of events of the store with the given calendar, start and
title. -/
def countEvents (cal : Str) (st : DateTime) (ti : Str) (store : List CalEvent) : Nat :=
  (store.filter (fun e => decide (e.calendar = cal ∧ e.start = st ∧ e.title = ti))).length

/-- Abstraction of the browser environment for the start of `fetch_games`
(lines 66-110 of `main.py`): whether an iframe element appears within the
bounded `wait_for_selector` timeout, and what `query_selector("iframe")`
then returns. -/
structure PageEnv where
  iframeAppears : Bool
  iframeSrc : Option Str
deriving DecidableEq, Repr

/-- Control flow of `fetch_games` around the frame lookup.  Playwright's
`wait_for_selector` raises `TimeoutError` when the selector does not appear
within the timeout; line 72 of `main.py` does not catch it, so the fetch
raises.  If the wait succeeds but `query_selector` returns `None`, or the
schedule table is missing, the (empty) `self.games` is returned.  Otherwise
the rows are processed. -/
def fetchGamesModel (env : PageEnv) (schedTable : Option (List RowInput)) (cfg : List Str)
    (now : DateTime) : RunResult :=
  if !env.iframeAppears then .raised
  else
    match env.iframeSrc with
    | none => .ok []
    | some _ =>
      match schedTable with
      | none => .ok []
      | some rows => processRows cfg now rows none []

/-- Modelled from the spec: the venue-routing table as the spec words it —
a case-insensitive substring match, checked in priority order, of the
first-location marker, the second-location marker, and the city name
Lévis/Levis, with the stated calendar buckets and title patterns.  Written
for comparison with `venueRoute`, which is translated from the code. -/
def venueRouteSpec (venue category : Str) : Option (Str × Str) :=
  let lv := lowerStr venue
  if containsStr (lowerStr (("(St-Aug").data)) lv then
    some ((("Dek St-Aug").data), ("game ").data ++ category)
  else if containsStr (lowerStr (("(Chauveau").data)) lv then
    some ((("Dek Chauveau").data), ("game ").data ++ category)
  else if containsStr (("lévis").data) lv || containsStr (("levis").data) lv then
    some ((("Autre").data), ("game ").data ++ category ++ (" Levis").data)
  else none

/-- Modelled from the spec: a time string of the exact form `H:MM` or
`HH:MM` — one or two hour digits, a colon, exactly two minute digits and
nothing else.  Written for comparison with the `(\d+):(\d+)` search the
code actually performs on the time string. -/
def specTimeForm : Str → Bool
  | [a, ':', b, c] => isDigitChar a && isDigitChar b && isDigitChar c
  | [a, a2, ':', b, c] => isDigitChar a && isDigitChar a2 && isDigitChar b && isDigitChar c
  | _ => false

/-- Configured team list with only `Team A`. -/
def cfgA : List Str := [("Team A").data]

/-- Configured team list with both `Team A` and `Team B`. -/
def cfgAB : List Str := [("Team A").data, ("Team B").data]

/-- A run time before the scenario game (2024-12-01 00:00). -/
def now0 : DateTime := ⟨2024, 12, 1, 0, 0⟩

/-- The run time of the relative-date scenario: today is 2024-12-20. -/
def nowDec20 : DateTime := ⟨2024, 12, 20, 9, 0⟩

/-- The absolute-date scenario row: date cell `2024-12-15`, time cell
`18:00` with venue `Arena (St-Aug)`, teams `Team A` and `Team B`, category
span `Hockey`. -/
def rowC3 : RowInput :=
  { h2Text := none
    classes := [("schedule_container").data]
    teamLinkTexts := [("Team A").data, ("Team B").data]
    catNameDiv := some (some (("Hockey").data))
    tds := [⟨some (("2024-12-15").data), none⟩,
            ⟨some (("18:00").data), some (("Arena (St-Aug)").data)⟩] }

/-- The same row with a venue matching none of the three markers. -/
def rowBadVenue : RowInput :=
  { rowC3 with
    tds := [⟨some (("2024-12-15").data), none⟩,
            ⟨some (("18:00").data), some (("Mystery Arena").data)⟩] }

/-- The game the absolute-date scenario row produces. -/
def gameC3 : Game :=
  { title := ("game Hockey").data
    start := ⟨2024, 12, 15, 18, 0⟩
    endTime := ⟨2024, 12, 15, 18, 50⟩
    location := []
    notes := ("Team A @ Team B\nArena").data
    calendar := ("Dek St-Aug").data
    ourTeam := ("Team A").data
    opponent := ("Team B").data
    isHome := false }


theorem mkDatetime_eq_some {y m d h mi : Nat} {dt : DateTime}
    (h1 : mkDatetime y m d h mi = some dt) :
    dt = ⟨y, m, d, h, mi⟩ ∧ isValidDateTime dt = true := by
  unfold mkDatetime at h1
  split at h1
  · cases h1
    exact ⟨rfl, by assumption⟩
  · cases h1

theorem dtLt_asymm (a b : DateTime) (h : dtLt a b = true) : dtLt b a = false := by
  simp only [dtLt, dtLtProp, decide_eq_true_eq, decide_eq_false_iff_not] at h ⊢
  omega

theorem containsStr_lower (p v : Str) (h : containsStr p v = true) :
    containsStr (lowerStr p) (lowerStr v) = true := by
  simp only [containsStr, decide_eq_true_eq] at h ⊢
  obtain ⟨s, t, rfl⟩ := h
  exact ⟨s.map lowerChar, t.map lowerChar, by simp [lowerStr]⟩

theorem teamMatch_pair (cfg : List Str) (t1 t2 : Str) :
    (t1 ∈ cfg → teamMatch cfg [t1, t2] = some (t1, (t2, false)))
    ∧ (t1 ∉ cfg → t2 ∈ cfg → teamMatch cfg [t1, t2] = some (t2, (t1, true)))
    ∧ (t1 ∉ cfg → t2 ∉ cfg → teamMatch cfg [t1, t2] = none) := by
  refine ⟨fun h1 => ?_, fun h1 h2 => ?_, fun h1 h2 => ?_⟩
  · simp [teamMatch, teamMatchGo, pyIndex, h1]
  · simp [teamMatch, teamMatchGo, pyIndex, h1, h2]
  · simp [teamMatch, teamMatchGo, pyIndex, h1, h2]

/-- C4 (amended): a time string in which no digit run is immediately
followed by a colon and another digit run makes `parse_french_date` fail
(produce no timestamp); the exact `H:MM`/`HH:MM` form the claim states is
not required, as the counterexample shows. -/
theorem parse_no_time_pair_none (ds ts : Str) (y : Option Nat) (now : DateTime)
    (h : searchTimePair ts = none) : parseFrenchDate ds ts y now = none := by
  unfold parseFrenchDate
  cases hdm : searchDayMonth ds with
  | none => rfl
  | some p =>
    obtain ⟨dS, wS⟩ := p
    cases hm : frenchMonths (lowerStr wS) with
    | none => simp [hm]
    | some m => simp [hm, h]

/-- C1: when no year is supplied and the day-number and month-name
extraction succeed, any timestamp `parse_french_date` produces carries the
inferred year — the current year, rolled forward by one when the parsed
month is earlier than the current month, or equal to it with a parsed day
earlier than today's. -/
theorem parse_year_inference (ds ts : Str) (now : DateTime) (dS wS : Str) (m : Nat)
    (dt : DateTime)
    (hdm : searchDayMonth ds = some (dS, wS))
    (hm : frenchMonths (lowerStr wS) = some m)
    (hres : parseFrenchDate ds ts none now = some dt) :
    dt.year = if m < now.month ∨ (m = now.month ∧ natOfDigits dS < now.day)
      then now.year + 1 else now.year := by
  unfold parseFrenchDate at hres
  rw [hdm] at hres
  simp only [hm] at hres
  cases hts : searchTimePair ts with
  | none => simp [hts] at hres
  | some p =>
    obtain ⟨hS, miS⟩ := p
    rw [hts] at hres
    have := (mkDatetime_eq_some hres).1
    rw [this]

set_option maxHeartbeats 1600000 in
theorem frenchMonths_le_12 (s : Str) (m : Nat) (h : frenchMonths s = some m) : m ≤ 12 := by
  unfold frenchMonths at h
  repeat' split at h
  all_goals cases h
  all_goals omega

theorem datetimeCtor_agrees_mkDatetime (y m d h mi : Nat) :
    (∀ dt, datetimeCtor y m d h mi = .ok dt → mkDatetime y m d h mi = some dt)
    ∧ (datetimeCtor y m d h mi = .valueError → mkDatetime y m d h mi = none)
    ∧ (datetimeCtor y m d h mi = .overflowError →
        cIntMax < y ∨ cIntMax < m ∨ cIntMax < d ∨ cIntMax < h ∨ cIntMax < mi) := by
  unfold datetimeCtor mkDatetime
  by_cases hov : cIntMax < y ∨ cIntMax < m ∨ cIntMax < d ∨ cIntMax < h ∨ cIntMax < mi
  · rw [if_pos hov]
    refine ⟨fun dt hh => ?_, fun hh => ?_, fun _ => hov⟩
    · cases hh
    · cases hh
  · rw [if_neg hov]
    by_cases hval : isValidDateTime ⟨y, m, d, h, mi⟩ = true
    · rw [if_pos hval, if_pos hval]
      refine ⟨fun dt hh => ?_, fun hh => ?_, fun hh => ?_⟩
      · cases hh
        rfl
      · cases hh
      · cases hh
    · rw [if_neg hval, if_neg hval]
      refine ⟨fun dt hh => ?_, fun hh => ?_, fun hh => ?_⟩
      · cases hh
      · rfl
      · cases hh

theorem pyDatetimeTry_ok (y m d h mi : Nat) (r : Option DateTime)
    (hh : pyDatetimeTry y m d h mi = .ok r) : r = mkDatetime y m d h mi := by
  unfold pyDatetimeTry at hh
  cases hc : datetimeCtor y m d h mi with
  | ok dt =>
    rw [hc] at hh
    cases hh
    exact ((datetimeCtor_agrees_mkDatetime y m d h mi).1 dt hc).symm
  | valueError =>
    rw [hc] at hh
    cases hh
    exact ((datetimeCtor_agrees_mkDatetime y m d h mi).2.1 hc).symm
  | overflowError =>
    rw [hc] at hh
    cases hh

theorem pyDatetimeTry_error (y m d h mi : Nat) (hh : pyDatetimeTry y m d h mi = .error ()) :
    cIntMax < y ∨ cIntMax < m ∨ cIntMax < d ∨ cIntMax < h ∨ cIntMax < mi := by
  unfold pyDatetimeTry at hh
  cases hc : datetimeCtor y m d h mi with
  | ok dt =>
    rw [hc] at hh
    cases hh
  | valueError =>
    rw [hc] at hh
    cases hh
  | overflowError => exact (datetimeCtor_agrees_mkDatetime y m d h mi).2.2 hc

theorem parseFrenchDate_some_valid (ds ts : Str) (y : Option Nat) (now : DateTime)
    (dt : DateTime) (h1 : parseFrenchDate ds ts y now = some dt) :
    isValidDateTime dt = true := by
  unfold parseFrenchDate at h1
  cases hdm : searchDayMonth ds with
  | none => rw [hdm] at h1; cases h1
  | some p =>
    obtain ⟨dS, wS⟩ := p
    rw [hdm] at h1
    cases hm : frenchMonths (lowerStr wS) with
    | none => simp [hm] at h1
    | some m =>
      simp only [hm] at h1
      cases hts : searchTimePair ts with
      | none => simp [hts] at h1
      | some q =>
        obtain ⟨hS, miS⟩ := q
        rw [hts] at h1
        exact (mkDatetime_eq_some h1).2

/-- C5 (amended): `parse_french_date` yields `None` — not an exception — on
a date string without a day-month match, an unrecognized month name and a
missing time match, any timestamp it produces passed the `datetime`
validity check, and whenever no exception escapes the total model
`parseFrenchDate` agrees with the call; but the claim's full totality
fails: the call raises the constructor's uncaught `OverflowError` exactly
when the parsed day, hour, minute or the inferred year exceeds the C-int
range, as the counterexample shows.  Within that range every invalid
calendar date yields `None` via the caught `ValueError`. -/
theorem parse_french_date_raises_only_overflow (ds ts : Str) (y : Option Nat)
    (now : DateTime) :
    (searchDayMonth ds = none → parseFrenchDateExc ds ts y now = .ok none)
    ∧ (∀ dS wS, searchDayMonth ds = some (dS, wS) → frenchMonths (lowerStr wS) = none →
        parseFrenchDateExc ds ts y now = .ok none)
    ∧ (searchTimePair ts = none → parseFrenchDateExc ds ts y now = .ok none)
    ∧ (∀ dt, parseFrenchDateExc ds ts y now = .ok (some dt) → isValidDateTime dt = true)
    ∧ (∀ r, parseFrenchDateExc ds ts y now = .ok r → r = parseFrenchDate ds ts y now)
    ∧ (parseFrenchDateExc ds ts y now = .error () →
        ∃ dS wS m hS miS,
          searchDayMonth ds = some (dS, wS)
          ∧ frenchMonths (lowerStr wS) = some m
          ∧ searchTimePair ts = some (hS, miS)
          ∧ (cIntMax < (match y with
              | some yv => yv
              | none => if m < now.month ∨ (m = now.month ∧ natOfDigits dS < now.day)
                  then now.year + 1 else now.year)
            ∨ cIntMax < natOfDigits dS ∨ cIntMax < natOfDigits hS
            ∨ cIntMax < natOfDigits miS)) := by
  have hok : ∀ r, parseFrenchDateExc ds ts y now = .ok r → r = parseFrenchDate ds ts y now := by
    intro r hh
    unfold parseFrenchDateExc at hh
    cases hdm : searchDayMonth ds with
    | none =>
      rw [hdm] at hh
      cases hh
      unfold parseFrenchDate
      rw [hdm]
    | some p =>
      obtain ⟨dS, wS⟩ := p
      rw [hdm] at hh
      cases hm : frenchMonths (lowerStr wS) with
      | none =>
        simp only [hm] at hh
        cases hh
        unfold parseFrenchDate
        rw [hdm]
        simp [hm]
      | some m =>
        simp only [hm] at hh
        cases hts : searchTimePair ts with
        | none =>
          simp only [hts] at hh
          cases hh
          unfold parseFrenchDate
          rw [hdm]
          simp [hm, hts]
        | some q =>
          obtain ⟨hS, miS⟩ := q
          rw [hts] at hh
          have hr := pyDatetimeTry_ok _ _ _ _ _ _ hh
          rw [hr]
          unfold parseFrenchDate
          rw [hdm]
          simp only [hm]
          rw [hts]
  refine ⟨fun h1 => ?_, fun dS wS h1 h2 => ?_, fun h1 => ?_, fun dt hh => ?_, hok,
    fun herr => ?_⟩
  · unfold parseFrenchDateExc
    rw [h1]
  · unfold parseFrenchDateExc
    rw [h1]
    simp [h2]
  · unfold parseFrenchDateExc
    cases hdm : searchDayMonth ds with
    | none => rfl
    | some p =>
      obtain ⟨dS, wS⟩ := p
      cases hm : frenchMonths (lowerStr wS) with
      | none => simp [hm]
      | some m => simp [hm, h1]
  · have h1 := (hok (some dt) hh).symm
    exact parseFrenchDate_some_valid ds ts y now dt h1
  · unfold parseFrenchDateExc at herr
    cases hdm : searchDayMonth ds with
    | none => rw [hdm] at herr; cases herr
    | some p =>
      obtain ⟨dS, wS⟩ := p
      rw [hdm] at herr
      cases hm : frenchMonths (lowerStr wS) with
      | none => simp [hm] at herr
      | some m =>
        simp only [hm] at herr
        cases hts : searchTimePair ts with
        | none => simp [hts] at herr
        | some q =>
          obtain ⟨hS, miS⟩ := q
          rw [hts] at herr
          have hov := pyDatetimeTry_error _ _ _ _ _ herr
          refine ⟨dS, wS, m, hS, miS, rfl, hm, rfl, ?_⟩
          rcases hov with h0 | h1 | h2 | h3 | h4
          · exact .inl h0
          · exfalso
            have h12 := frenchMonths_le_12 _ _ hm
            have hci : cIntMax = 2147483647 := rfl
            omega
          · exact .inr (.inl h2)
          · exact .inr (.inr (.inl h3))
          · exact .inr (.inr (.inr h4))

theorem containsStr_or_lower (p v : Str) :
    (containsStr p v || containsStr (lowerStr p) (lowerStr v)) =
      containsStr (lowerStr p) (lowerStr v) := by
  cases hc : containsStr p v
  · simp
  · simp [containsStr_lower p v hc]

theorem venueRoute_eq_spec (v cat : Str) : venueRoute v cat = venueRouteSpec v cat := by
  have e1 : lowerStr ['(', 'S', 't', '-', 'A', 'u', 'g'] = ['(', 's', 't', '-', 'a', 'u', 'g'] := by
    decide
  have e2 : lowerStr ['(', 'C', 'h', 'a', 'u', 'v', 'e', 'a', 'u']
      = ['(', 'c', 'h', 'a', 'u', 'v', 'e', 'a', 'u'] := by decide
  simp only [venueRoute, venueRouteSpec]
  rw [← e1, ← e2, containsStr_or_lower, containsStr_or_lower]

theorem venueRoute_calendar (v c cal ti : Str) (h : venueRoute v c = some (cal, ti)) :
    cal = ("Dek St-Aug").data ∨ cal = ("Dek Chauveau").data ∨ cal = ("Autre").data := by
  unfold venueRoute at h
  split at h
  · cases h
    exact .inl rfl
  · split at h
    · cases h
      exact .inr (.inl rfl)
    · split at h
      · cases h
        exact .inr (.inr rfl)
      · cases h

theorem processGameRow_game_inv (cfg : List Str) (cur : Option Str) (row : RowInput)
    (now : DateTime) (g : Game) (h : processGameRow cfg cur row now = .game g) :
    g.endTime = g.start.addMinutes 50
    ∧ (g.calendar = ("Dek St-Aug").data ∨ g.calendar = ("Dek Chauveau").data ∨
        g.calendar = ("Autre").data)
    ∧ dtLt g.start now = false := by
  simp only [processGameRow] at h
  repeat' split at h
  all_goals try cases h
  all_goals
    exact ⟨rfl, venueRoute_calendar _ _ _ _ (by assumption),
      Bool.eq_false_iff.mpr (by assumption)⟩

theorem processRows_mem_inv (cfg : List Str) (now : DateTime) (rows : List RowInput) :
    ∀ cur acc gs, processRows cfg now rows cur acc = .ok gs →
      ∀ g ∈ gs, g ∈ acc ∨ ∃ cur2 row, processGameRow cfg cur2 row now = .game g := by
  induction rows with
  | nil =>
    intro cur acc gs h g hg
    cases h
    exact .inl hg
  | cons row rest ih =>
    intro cur acc gs h g hg
    simp only [processRows] at h
    split at h
    · exact ih _ _ _ h g hg
    · split at h
      · split at h
        · cases h
        · exact ih _ _ _ h g hg
        · rename_i g2 hrow
          rcases ih _ _ _ h g hg with hacc | hgame
          · rcases List.mem_append.mp hacc with hacc2 | hg2
            · exact .inl hacc2
            · refine .inr ⟨cur, row, ?_⟩
              rw [hrow, List.mem_singleton.mp hg2]
          · exact .inr hgame
      · exact ih _ _ _ h g hg

theorem addToCalendar_store_mono (gs : List Game) :
    ∀ store g, store.any (eventMatches g) = true →
      (addToCalendar store gs).1.any (eventMatches g) = true := by
  induction gs with
  | nil =>
    intro store g h
    exact h
  | cons x xs ih =>
    intro store g h
    simp only [addToCalendar]
    split
    · exact ih store g h
    · refine ih _ g ?_
      simp [List.any_append, h]

theorem eventMatches_makeEvent (g : Game) : eventMatches g (makeEvent g) = true := by
  simp [eventMatches, makeEvent]

theorem addToCalendar_all_present (gs : List Game) :
    ∀ store g, g ∈ gs → (addToCalendar store gs).1.any (eventMatches g) = true := by
  induction gs with
  | nil =>
    intro store g hg
    cases hg
  | cons x xs ih =>
    intro store g hg
    simp only [addToCalendar]
    rcases List.mem_cons.mp hg with rfl | hg2
    · split
      · rename_i hin
        exact addToCalendar_store_mono xs store g hin
      · refine addToCalendar_store_mono xs _ g ?_
        simp [List.any_append, eventMatches_makeEvent]
    · split
      · exact ih store g hg2
      · exact ih _ g hg2

theorem addToCalendar_noop (gs : List Game) :
    ∀ store, (∀ g ∈ gs, store.any (eventMatches g) = true) →
      addToCalendar store gs = (store, 0, gs.length) := by
  induction gs with
  | nil =>
    intro store _
    rfl
  | cons x xs ih =>
    intro store h
    simp only [addToCalendar]
    rw [if_pos (h x (by simp))]
    rw [ih store (fun g hg => h g (by simp [hg]))]
    rfl

theorem any_eventMatches_iff_pos (x : Game) (store : List CalEvent) :
    store.any (eventMatches x) = true ↔
      0 < countEvents x.calendar x.start x.title store := by
  unfold countEvents
  rw [List.any_eq_true, List.length_pos_iff_exists_mem]
  constructor
  · rintro ⟨e, he, hm⟩
    exact ⟨e, List.mem_filter.mpr ⟨he, by simpa [eventMatches] using hm⟩⟩
  · rintro ⟨e, he⟩
    obtain ⟨he1, he2⟩ := List.mem_filter.mp he
    exact ⟨e, he1, by simpa [eventMatches] using he2⟩

theorem countEvents_append (cal : Str) (st : DateTime) (ti : Str) (s1 s2 : List CalEvent) :
    countEvents cal st ti (s1 ++ s2) = countEvents cal st ti s1 + countEvents cal st ti s2 := by
  simp [countEvents, List.filter_append]

theorem countEvents_singleton_makeEvent (x : Game) (cal : Str) (st : DateTime) (ti : Str) :
    countEvents cal st ti [makeEvent x] =
      if x.calendar = cal ∧ x.start = st ∧ x.title = ti then 1 else 0 := by
  by_cases hx : x.calendar = cal ∧ x.start = st ∧ x.title = ti
  · simp [countEvents, makeEvent, hx]
  · simp [countEvents, makeEvent, hx]

theorem countEvents_addToCalendar (gs : List Game) :
    ∀ store cal st ti,
      countEvents cal st ti (addToCalendar store gs).1 =
        if 0 < countEvents cal st ti store then countEvents cal st ti store
        else if gs.any (fun g => decide (g.calendar = cal ∧ g.start = st ∧ g.title = ti)) then 1
        else 0 := by
  induction gs with
  | nil =>
    intro store cal st ti
    simp only [addToCalendar, List.any_nil]
    by_cases hc : 0 < countEvents cal st ti store
    · rw [if_pos hc]
    · rw [if_neg hc]
      have e0 : (if false = true then (1:Nat) else 0) = 0 := rfl
      rw [e0]
      omega
  | cons x xs ih =>
    intro store cal st ti
    simp only [addToCalendar]
    split
    · rename_i hin
      rw [ih store cal st ti]
      have hpos := (any_eventMatches_iff_pos x store).mp hin
      by_cases hc : 0 < countEvents cal st ti store
      · rw [if_pos hc, if_pos hc]
      · have hPx : decide (x.calendar = cal ∧ x.start = st ∧ x.title = ti) = false := by
          by_contra hne
          rw [Bool.not_eq_false] at hne
          obtain ⟨e1, e2, e3⟩ := of_decide_eq_true hne
          rw [e1, e2, e3] at hpos
          exact hc hpos
        rw [if_neg hc, if_neg hc, List.any_cons, hPx, Bool.false_or]
    · rename_i hnin
      rw [ih (store ++ [makeEvent x]) cal st ti, countEvents_append,
        countEvents_singleton_makeEvent, List.any_cons]
      by_cases hPx : x.calendar = cal ∧ x.start = st ∧ x.title = ti
      · have hc0 : countEvents cal st ti store = 0 := by
          by_contra hne
          refine hnin ((any_eventMatches_iff_pos x store).mpr ?_)
          obtain ⟨e1, e2, e3⟩ := hPx
          rw [e1, e2, e3]
          omega
        have d1 : decide (x.calendar = cal ∧ x.start = st ∧ x.title = ti) = true :=
          decide_eq_true hPx
        rw [if_pos hPx, hc0, d1, Bool.true_or]
        have e1 : (0:Nat) + 1 = 1 := rfl
        rw [e1, if_pos (by omega : (0:Nat) < 1), if_neg (by omega : ¬(0:Nat) < 0),
          if_pos rfl]
      · have d0 : decide (x.calendar = cal ∧ x.start = st ∧ x.title = ti) = false :=
          decide_eq_false hPx
        rw [if_neg hPx, Nat.add_zero, d0, Bool.false_or]

/-- C3: the absolute-date scenario row — date cell `2024-12-15`, time cell
`18:00`, teams `Team A`/`Team B` with only `Team A` configured, category
`Hockey`, venue `Arena (St-Aug)` — produces exactly the game with start
2024-12-15 18:00, end 18:50, calendar `Dek St-Aug`, title `game Hockey`,
`is_home` false and notes `Team A @ Team B`, newline, `Arena`, provided the
run time is before the game start. -/
theorem absolute_row_scenario (now : DateTime)
    (h : dtLt now ⟨2024, 12, 15, 18, 0⟩ = true) :
    processGameRow cfgA none rowC3 now = .game gameC3 := by
  have hf : dtLt ⟨2024, 12, 15, 18, 0⟩ now = false := dtLt_asymm now _ h
  have hstep : processGameRow cfgA none rowC3 now =
      if dtLt ⟨2024, 12, 15, 18, 0⟩ now then .skip else .game gameC3 := rfl
  rw [hstep, hf]
  rfl

/-- C3 witness: the scenario discharged at the concrete run time
2024-12-01 00:00. -/
theorem absolute_row_scenario_witness :
    dtLt now0 ⟨2024, 12, 15, 18, 0⟩ = true
    ∧ processGameRow cfgA none rowC3 now0 = .game gameC3 :=
  ⟨by decide, absolute_row_scenario now0 (by decide)⟩

/-- C2 counterexample: a row whose two distinct extracted team names are
both in the configured list is kept and produces a Game (with the
first-listed name as `our_team`), not discarded as the claim states. -/
theorem team_filter_both_counterexample :
    (("Team A").data : Str) ∈ cfgAB ∧ (("Team B").data : Str) ∈ cfgAB
    ∧ (("Team A").data : Str) ≠ ("Team B").data
    ∧ dedupTeams (rowC3.teamLinkTexts.filter (fun t => decide (t ≠ [])))
        = [("Team A").data, ("Team B").data]
    ∧ processGameRow cfgAB none rowC3 now0 = .game gameC3 := by decide

/-- C2 (amended): with two distinct extracted team names, the row is
discarded at the team filter iff neither name is configured; if the first
name is configured it becomes `our_team` (away), and if only the second is
configured it becomes `our_team` (home).  A row with neither name
configured yields no Game. -/
theorem team_filter_amended (cfg : List Str) (t1 t2 : Str) (hne : t1 ≠ t2) :
    (teamMatch cfg [t1, t2] = none ↔ t1 ∉ cfg ∧ t2 ∉ cfg)
    ∧ (t1 ∈ cfg → teamMatch cfg [t1, t2] = some (t1, (t2, false)))
    ∧ (t1 ∉ cfg → t2 ∈ cfg → teamMatch cfg [t1, t2] = some (t2, (t1, true)))
    ∧ ∀ cur row now,
        dedupTeams (row.teamLinkTexts.filter (fun t => decide (t ≠ []))) = [t1, t2] →
        t1 ∉ cfg → t2 ∉ cfg → processGameRow cfg cur row now = .skip := by
  obtain ⟨p1, p2, p3⟩ := teamMatch_pair cfg t1 t2
  refine ⟨⟨fun hn => ?_, fun ⟨h1, h2⟩ => p3 h1 h2⟩, p1, p2, ?_⟩
  · by_cases h1 : t1 ∈ cfg
    · rw [p1 h1] at hn
      cases hn
    · by_cases h2 : t2 ∈ cfg
      · rw [p2 h1 h2] at hn
        cases hn
      · exact ⟨h1, h2⟩
  · intro cur row now hrow h1 h2
    simp only [processGameRow]
    rw [hrow, p3 h1 h2]
    split
    · rfl
    · rfl

/-- C2 witness: the amended behaviour at concrete inputs — distinct names,
match of the first configured name, and the discard when nothing is
configured. -/
theorem team_filter_amended_witness :
    teamMatch cfgA [("Team A").data, ("Team B").data]
        = some ((("Team A").data), (("Team B").data, false))
    ∧ processGameRow [] none rowC3 now0 = .skip :=
  ⟨(team_filter_amended cfgA (("Team A").data) (("Team B").data) (by decide)).2.1 (by decide),
   (team_filter_amended [] (("Team A").data) (("Team B").data) (by decide)).2.2.2
     none rowC3 now0 (by decide) (by decide) (by decide)⟩

/-- C7: with two distinct extracted team names of which exactly one is
configured, any produced Game has `our_team` the matched name, `opponent`
the other, and `is_home` true iff the matched name was listed second. -/
theorem exactly_one_match_fields (cfg : List Str) (cur : Option Str) (row : RowInput)
    (now : DateTime) (t1 t2 : Str) (g : Game)
    (hteams : dedupTeams (row.teamLinkTexts.filter (fun t => decide (t ≠ []))) = [t1, t2])
    (hone : (t1 ∈ cfg ∧ t2 ∉ cfg) ∨ (t2 ∈ cfg ∧ t1 ∉ cfg))
    (hres : processGameRow cfg cur row now = .game g) :
    (t1 ∈ cfg → g.ourTeam = t1 ∧ g.opponent = t2 ∧ g.isHome = false)
    ∧ (t2 ∈ cfg → g.ourTeam = t2 ∧ g.opponent = t1 ∧ g.isHome = true) := by
  rcases hone with ⟨h1, h2⟩ | ⟨h1, h2⟩
  · have ht : teamMatch cfg [t1, t2] = some (t1, (t2, false)) :=
      (teamMatch_pair cfg t1 t2).1 h1
    simp only [processGameRow] at hres
    simp only [hteams, ht] at hres
    repeat' split at hres
    all_goals try cases hres
    all_goals exact ⟨fun _ => ⟨rfl, rfl, rfl⟩, fun hmem => absurd hmem h2⟩
  · have ht : teamMatch cfg [t1, t2] = some (t2, (t1, true)) :=
      (teamMatch_pair cfg t1 t2).2.1 h2 h1
    simp only [processGameRow] at hres
    simp only [hteams, ht] at hres
    repeat' split at hres
    all_goals try cases hres
    all_goals exact ⟨fun hmem => absurd hmem h2, fun _ => ⟨rfl, rfl, rfl⟩⟩

/-- C7 witness: the scenario row with only `Team A` configured. -/
theorem exactly_one_match_fields_witness :
    dedupTeams (rowC3.teamLinkTexts.filter (fun t => decide (t ≠ [])))
        = [("Team A").data, ("Team B").data]
    ∧ processGameRow cfgA none rowC3 now0 = .game gameC3
    ∧ (gameC3.ourTeam = ("Team A").data ∧ gameC3.opponent = ("Team B").data ∧
        gameC3.isHome = false) :=
  ⟨by decide, by decide,
    (exactly_one_match_fields cfgA none rowC3 now0 (("Team A").data) (("Team B").data) gameC3
      (by decide) (.inl ⟨by decide, by decide⟩) (by decide)).1 (by decide)⟩

/-- C6: venue routing agrees with the spec's case-insensitive priority
table — first marker to `Dek St-Aug`, second to `Dek Chauveau`, the city
name Lévis/Levis to `Autre` with the `Levis` title suffix (in particular
`Centre Lévis` routes to `Autre`), and a venue matching none of the three
is discarded, producing no Game. -/
theorem venue_routing_cases (v cat : Str) :
    venueRoute v cat = venueRouteSpec v cat
    ∧ venueRoute (("Centre Lévis").data) cat
        = some ((("Autre").data), ("game ").data ++ cat ++ (" Levis").data)
    ∧ processGameRow cfgA none rowBadVenue now0 = .skip := by
  refine ⟨venueRoute_eq_spec v cat, ?_, by decide⟩
  unfold venueRoute
  rw [if_neg (by decide), if_neg (by decide), if_pos (by decide)]

/-- C8 counterexample: when no iframe appears within the bounded wait, the
fetch raises the uncaught Playwright timeout error instead of returning an
empty game list. -/
theorem frame_timeout_counterexample :
    fetchGamesModel ⟨false, none⟩ none cfgA now0 = .raised
    ∧ fetchGamesModel ⟨false, none⟩ none cfgA now0 ≠ .ok [] := by decide

/-- C8 (amended): if no frame element appears within the bounded wait the
timeout error propagates out of the fetch (fatal to the run, which does
not catch it); only when the wait succeeds but the frame query returns
nothing does the fetch return an empty game list without raising. -/
theorem frame_wait_behaviour (env : PageEnv) (tbl : Option (List RowInput))
    (cfg : List Str) (now : DateTime) :
    (env.iframeAppears = false → fetchGamesModel env tbl cfg now = .raised)
    ∧ (env.iframeAppears = true → env.iframeSrc = none →
        fetchGamesModel env tbl cfg now = .ok []) := by
  obtain ⟨ap, src⟩ := env
  constructor
  · intro h
    cases h
    rfl
  · intro h1 h2
    cases h1
    cases h2
    rfl

/-- C8 witness: both branches of the amended behaviour at concrete
environments. -/
theorem frame_wait_behaviour_witness :
    fetchGamesModel ⟨false, none⟩ none cfgA now0 = .raised
    ∧ fetchGamesModel ⟨true, none⟩ none cfgA now0 = .ok [] :=
  ⟨(frame_wait_behaviour ⟨false, none⟩ none cfgA now0).1 rfl,
   (frame_wait_behaviour ⟨true, none⟩ none cfgA now0).2 rfl rfl⟩

/-- C9: starting from an empty store, a second run of the calendar writer
on the same game list changes nothing — every game is classified as a
duplicate (zero added, all skipped) — and the store after the first run
holds exactly one event per (calendar, start, title) triple occurring in
the list and nothing else. -/
theorem calendar_writer_idempotent (gs : List Game) :
    addToCalendar (addToCalendar [] gs).1 gs = ((addToCalendar [] gs).1, 0, gs.length)
    ∧ ∀ cal st ti,
        countEvents cal st ti (addToCalendar [] gs).1 =
          if gs.any (fun g => decide (g.calendar = cal ∧ g.start = st ∧ g.title = ti)) then 1
          else 0 := by
  constructor
  · exact addToCalendar_noop gs _ (fun g hg => addToCalendar_all_present gs [] g hg)
  · intro cal st ti
    have h := countEvents_addToCalendar gs [] cal st ti
    have hz : countEvents cal st ti [] = 0 := rfl
    rw [hz] at h
    rw [h, if_neg (by omega : ¬(0:Nat) < 0)]

/-- C10: every game in the list produced by the row loop has its end
exactly 50 minutes after its start, a calendar among the three fixed
buckets, and a start not strictly before the run time used by the
past-game filter. -/
theorem game_list_invariant (cfg : List Str) (now : DateTime) (rows : List RowInput)
    (cur : Option Str) (gs : List Game)
    (h : processRows cfg now rows cur [] = .ok gs) (g : Game) (hg : g ∈ gs) :
    g.endTime = g.start.addMinutes 50
    ∧ (g.calendar = ("Dek St-Aug").data ∨ g.calendar = ("Dek Chauveau").data ∨
        g.calendar = ("Autre").data)
    ∧ dtLt g.start now = false := by
  rcases processRows_mem_inv cfg now rows cur [] gs h g hg with h0 | ⟨cur2, row, hrow⟩
  · cases h0
  · exact processGameRow_game_inv cfg cur2 row now g hrow

/-- C10 witness: the invariant discharged on the one-row scenario list. -/
theorem game_list_invariant_witness :
    processRows cfgA now0 [rowC3] none [] = .ok [gameC3]
    ∧ gameC3 ∈ [gameC3]
    ∧ (gameC3.endTime = gameC3.start.addMinutes 50
      ∧ (gameC3.calendar = ("Dek St-Aug").data ∨ gameC3.calendar = ("Dek Chauveau").data ∨
          gameC3.calendar = ("Autre").data)
      ∧ dtLt gameC3.start now0 = false) :=
  ⟨by decide, by decide,
    game_list_invariant cfgA now0 [rowC3] none [gameC3] (by decide) gameC3 (by decide)⟩

/-- C1 witness: day 15 of décembre with time 18:00, evaluated when today
is 2024-12-20, resolves with the rolled-forward year 2025. -/
theorem parse_year_inference_witness :
    searchDayMonth (("lundi, 15 décembre").data) = some ((("15").data), ("décembre").data)
    ∧ frenchMonths (lowerStr (("décembre").data)) = some 12
    ∧ parseFrenchDate (("lundi, 15 décembre").data) (("18:00").data) none nowDec20
        = some ⟨2025, 12, 15, 18, 0⟩
    ∧ (⟨2025, 12, 15, 18, 0⟩ : DateTime).year =
        (if 12 < nowDec20.month ∨ (12 = nowDec20.month ∧ natOfDigits (("15").data) < nowDec20.day)
          then nowDec20.year + 1 else nowDec20.year) :=
  ⟨by decide, by decide, by decide,
    parse_year_inference (("lundi, 15 décembre").data) (("18:00").data) nowDec20
      (("15").data) (("décembre").data) 12 ⟨2025, 12, 15, 18, 0⟩
      (by decide) (by decide) (by decide)⟩

/-- C4 counterexample: the time string `5:5` is not of the form `H:MM` or
`HH:MM`, yet `parse_french_date` accepts it (the code only searches for
`(\d+):(\d+)`), producing 05:05 on the resolved date. -/
theorem time_form_counterexample :
    specTimeForm (("5:5").data) = false
    ∧ parseFrenchDate (("lundi, 15 décembre").data) (("5:5").data) none nowDec20
        = some ⟨2025, 12, 15, 5, 5⟩ := by decide

/-- C4 witness: a time string with no digit-colon-digit substring fails. -/
theorem parse_no_time_pair_witness :
    searchTimePair (("abc").data) = none
    ∧ parseFrenchDate (("lundi, 15 décembre").data) (("abc").data) none nowDec20 = none :=
  ⟨by decide, parse_no_time_pair_none (("lundi, 15 décembre").data) (("abc").data)
    none nowDec20 (by decide)⟩

/-- C5 counterexample: the out-of-range hour 99999999999999999999 lies
beyond the C-int range, so the `datetime` call raises `OverflowError` —
which the `except ValueError` does not catch — and `parse_french_date`
raises instead of yielding `None` as the claim states. -/
theorem parse_overflow_counterexample :
    searchTimePair (("99999999999999999999:00").data)
        = some ((("99999999999999999999").data), ("00").data)
    ∧ cIntMax < natOfDigits (("99999999999999999999").data)
    ∧ parseFrenchDateExc (("lundi, 15 décembre").data)
        (("99999999999999999999:00").data) none nowDec20 = .error ()
    ∧ parseFrenchDateExc (("lundi, 15 décembre").data)
        (("99999999999999999999:00").data) none nowDec20 ≠ .ok none := by decide

/-- C5 witness: the amended behaviour discharged at concrete inputs — an
unrecognized month, a date string with no day-month match, a malformed
time string, validity of a produced timestamp, agreement with the total
model on a non-raising input, and (directly evaluated) the within-C-int
invalid dates of the claim, day 31 of novembre and hour 99, both yielding
`None` without raising. -/
theorem parse_raises_only_overflow_witness :
    parseFrenchDateExc (("15 zzz").data) (("18:00").data) none nowDec20 = .ok none
    ∧ parseFrenchDateExc (("décembre").data) (("18:00").data) none nowDec20 = .ok none
    ∧ parseFrenchDateExc (("15 décembre").data) (("abc").data) none nowDec20 = .ok none
    ∧ isValidDateTime ⟨2025, 12, 15, 18, 0⟩ = true
    ∧ (some ⟨2025, 12, 15, 18, 0⟩ : Option DateTime)
        = parseFrenchDate (("15 décembre").data) (("18:00").data) none nowDec20
    ∧ parseFrenchDateExc (("31 novembre").data) (("18:00").data) none nowDec20 = .ok none
    ∧ parseFrenchDateExc (("15 décembre").data) (("99:00").data) none nowDec20 = .ok none :=
  ⟨(parse_french_date_raises_only_overflow (("15 zzz").data) (("18:00").data)
      none nowDec20).2.1 (("15").data) (("zzz").data) (by decide) (by decide),
   (parse_french_date_raises_only_overflow (("décembre").data) (("18:00").data)
      none nowDec20).1 (by decide),
   (parse_french_date_raises_only_overflow (("15 décembre").data) (("abc").data)
      none nowDec20).2.2.1 (by decide),
   (parse_french_date_raises_only_overflow (("15 décembre").data) (("18:00").data)
      none nowDec20).2.2.2.1 ⟨2025, 12, 15, 18, 0⟩ (by decide),
   (parse_french_date_raises_only_overflow (("15 décembre").data) (("18:00").data)
      none nowDec20).2.2.2.2.1 (some ⟨2025, 12, 15, 18, 0⟩) (by decide),
   by decide, by decide⟩
